import Mathlib

/-!
Verification of the vitarx router core (route registry, path matching and the
navigation state machine) against its natural-language specification.

The embedding follows the TypeScript sources:
  * `src/core/utils.ts` — `formatPath`, `mergePathParams`, `createDynamicPattern`,
    `getPathSuffix`, `splitPathAndSuffix`, `validateSuffix`, `isVariablePath`;
  * `lib/core/router-registry.ts` — `recordRoute`, `recordDynamicRoute`, `matchRoute`;
  * `lib/core/router-core.ts` — `createRouteLocation`, `navigate`;
  * `lib/router/memory-router.ts` — `go`, `_updateHistory`.

Machine strings are modelled as `String` / `List Char`; JavaScript regular
expressions that the code builds are modelled by a small structured pattern
type together with a backtracking matcher that mirrors the greedy semantics of
the generated patterns.  All recursive functions are structural or fueled so
that every definition evaluates by `decide` / `rfl`.
-/

deriving instance DecidableEq for Except

namespace VitarxRouter

/-- Whitespace class of the JavaScript regex `\s` (the members relevant to
this code base; the router only ever feeds it path strings). -/
def isJsWhitespace (c : Char) : Bool :=
  c = ' ' || c = '\t' || c = '\n' || c = '\r' ||
  c = Char.ofNat 11 || c = Char.ofNat 12 || c = Char.ofNat 0xA0 || c = Char.ofNat 0xFEFF

/-- Word character of the JavaScript regex `\w`, i.e. `[A-Za-z0-9_]`. -/
def isWordChar (c : Char) : Bool :=
  ('a' ≤ c && c ≤ 'z') || ('A' ≤ c && c ≤ 'Z') || ('0' ≤ c && c ≤ '9') || c = '_'

/-- Collapse every run of `/` characters into a single `/`
(the `replace(/\/+/g, '/')` step of `formatPath`). -/
def collapseSlashes : List Char → List Char
  | [] => []
  | [a] => [a]
  | a :: b :: rest =>
    if a = '/' && b = '/' then collapseSlashes (b :: rest)
    else a :: collapseSlashes (b :: rest)

/-- `true` when the list contains no two adjacent `/` characters. -/
def noDoubleSlash : List Char → Bool
  | a :: b :: rest => !(a = '/' && b = '/') && noDoubleSlash (b :: rest)
  | _ => true

/-- Drop a single trailing `/` (the `replace(/\/$/, '')` step of `formatPath`). -/
def dropTrailingSlash (l : List Char) : List Char :=
  if l.getLast? = some '/' then l.dropLast else l

/-- Embedding of `formatPath` (src/core/utils.ts): prefix a slash, strip all
whitespace, collapse duplicate slashes, keep `/` and `/#/` as is, otherwise
drop one trailing slash. -/
def formatPathChars (p : List Char) : List Char :=
  let s := collapseSlashes (('/' :: p).filter (fun c => !isJsWhitespace c))
  if s = [] then ['/']
  else if s = ['/'] || s = ['/', '#', '/'] then s
  else dropTrailingSlash s

/-- String form of `formatPath`. -/
def formatPath (s : String) : String :=
  String.mk (formatPathChars s.data)

/-- ASCII lower-casing, the behaviour of `toLowerCase` on the path strings the
router handles. -/
def lowerChar (c : Char) : Char :=
  if 'A' ≤ c && c ≤ 'Z' then Char.ofNat (c.toNat + 32) else c

/-- Lower-case a string (`path.toLowerCase()`). -/
def toLowerStr (s : String) : String :=
  String.mk (s.data.map lowerChar)

/-- Embedding of `getPathSuffix` (src/core/utils.ts): the substring from the
last `.` on, provided that `.` is not the final character; empty otherwise. -/
def getPathSuffixChars (l : List Char) : List Char :=
  match l.reverse with
  | '.' :: _ => []
  | r =>
    let ext := r.takeWhile (fun c => c ≠ '.')
    if ext.length = r.length then [] else '.' :: ext.reverse

/-- Embedding of `splitPathAndSuffix`: the path with the suffix removed, and
the suffix without its leading dot. -/
def splitPathAndSuffix (l : List Char) : List Char × List Char :=
  let sfx := getPathSuffixChars l
  if sfx = [] then (l, []) else (l.take (l.length - sfx.length), sfx.drop 1)

/-- The `suffix` router option: `'*'`, `false`, a list of strings, or one
string. -/
inductive SuffixPolicy where
  | star
  | off
  | list (xs : List String)
  | single (s : String)
deriving DecidableEq

/-- JavaScript truthiness of the `suffix` option (`false` and `''` are falsy,
an array is always truthy). -/
def SuffixPolicy.truthy : SuffixPolicy → Bool
  | .off => false
  | .single s => s ≠ ""
  | _ => true

/-- Embedding of `validateSuffix` (src/core/utils.ts). -/
def validateSuffix (suffix : String) (allow : SuffixPolicy)
    (inputPath routePath : String) : Bool :=
  match allow with
  | .star => true
  | .off => inputPath = routePath
  | .list xs => xs.contains suffix
  | .single s => suffix = s

/-- Embedding of `isVariablePath` (src/core/utils.ts): the test of the regex
`\{[^}]+}`, scanning for a brace pair with a non-empty body. -/
def isVariablePathChars : List Char → Bool
  | [] => false
  | '{' :: rest =>
    (decide (rest.takeWhile (fun c => c ≠ '}') ≠ []) &&
      (rest.dropWhile (fun c => c ≠ '}')).head? = some '}') || isVariablePathChars rest
  | _ :: rest => isVariablePathChars rest

/-- Path parameters: a JavaScript record whose values may be `undefined`
(`none`); key order is insertion order. -/
abbrev Params := List (String × Option String)

/-- Reading `params[name]`: an absent key and a key whose stored value is
`undefined` both read as `undefined`. -/
def lookupParam (ps : Params) (name : String) : Option String :=
  ((ps.find? (fun kv => kv.1 = name)).map (·.2)).join

/-- `Object.assign` onto a params record: existing keys are overwritten in
place, new keys are appended. -/
def setParam (ps : Params) (name : String) (v : Option String) : Params :=
  if ps.any (fun kv => kv.1 = name) then
    ps.map (fun kv => if kv.1 = name then (name, v) else kv)
  else ps ++ [(name, v)]

/-- `Object.assign(base, add)` over two params records. -/
def assignParams (base add : Params) : Params :=
  add.foldl (fun acc kv => setParam acc kv.1 kv.2) base

/-- Replace every whitespace run by a single `_`
(`String(value).replace(/\s+/g, '_')` in `mergePathParams`). -/
def wsRunsToUnderscore : List Char → List Char
  | [] => []
  | [a] => if isJsWhitespace a then ['_'] else [a]
  | a :: b :: rest =>
    if isJsWhitespace a && isJsWhitespace b then wsRunsToUnderscore (b :: rest)
    else if isJsWhitespace a then '_' :: wsRunsToUnderscore (b :: rest)
    else a :: wsRunsToUnderscore (b :: rest)

/-- Error message of `mergePathParams` for a missing mandatory parameter. -/
def missingParamMsg (path name : String) : String :=
  "missing required path parameter " ++ name ++ " for " ++ path

/-- One fueled pass of the `path.replace(/{([^}]+)\?*}/g, ...)` callback loop
of `mergePathParams`: the capture is everything between the braces, a trailing
`?` marks the parameter optional, a missing mandatory parameter throws. -/
def mergeScan (origPath : String) (ps : Params) : Nat → List Char → Except String (List Char)
  | 0, l => .ok l
  | _ + 1, [] => .ok []
  | fuel + 1, '{' :: rest =>
    let body := rest.takeWhile (fun c => c ≠ '}')
    let after := rest.drop body.length
    if body ≠ [] ∧ after.head? = some '}' then
      let isOpt := body.getLast? = some '?'
      let name := String.mk (if isOpt then body.dropLast else body)
      match lookupParam ps name with
      | none =>
        if isOpt then mergeScan origPath ps fuel (after.drop 1)
        else .error (missingParamMsg origPath name)
      | some v =>
        match mergeScan origPath ps fuel (after.drop 1) with
        | .ok out => .ok (wsRunsToUnderscore v.data ++ out)
        | .error e => .error e
    else
      match mergeScan origPath ps fuel rest with
      | .ok out => .ok ('{' :: out)
      | .error e => .error e
  | fuel + 1, c :: rest =>
    match mergeScan origPath ps fuel rest with
    | .ok out => .ok (c :: out)
    | .error e => .error e

/-- Embedding of `mergePathParams` (src/core/utils.ts): substitute path
parameters into the template, then re-format the path.  A missing mandatory
parameter is a thrown `TypeError`, modelled as `Except.error`. -/
def mergePathParams (path : String) (ps : Params) : Except String String :=
  if !isVariablePathChars path.data then .ok path else
  match mergeScan path ps (path.data.length + 1) path.data with
  | .ok out => .ok (formatPath (String.mk out))
  | .error e => .error e

/-- Character class occurring in a generated route regex.  `wordDot` is the
default `pattern` option `[\w.]` of the router. -/
inductive CharCls where
  | wordDot
deriving DecidableEq

/-- Membership test of a character class. -/
def CharCls.test : CharCls → Char → Bool
  | .wordDot, c => isWordChar c || c = '.'

/-- One piece of a generated route regex: a literal character, a capturing
group `(cls+)` (wrapped in `(?:...)?` when `opt`), or the final `\/?`. -/
inductive RPiece where
  | lit (c : Char)
  | grp (cls : CharCls) (opt : Bool)
  | optSlash
deriving DecidableEq

/-- Captured groups of a regex match, in group order; `none` is an
unparticipating optional group (`undefined` in JavaScript). -/
abbrev Caps := List (Option (List Char))

/-- Backtracking matcher for a generated route regex, anchored at both ends.
`fuel` only bounds the recursion over the piece list (pass `pieces.length + 1`).
Greedy semantics of the generated patterns: a group takes the longest class
run first and gives characters back on failure, an optional group may also
participate not at all, `\/?` prefers to consume. -/
def matchPieces (fuel : Nat) (pieces : List RPiece) (s : List Char) : Option Caps :=
  match fuel with
  | 0 => none
  | fuel + 1 =>
    match pieces with
    | [] => if s = [] then some [] else none
    | .lit c :: ps =>
      match s with
      | d :: rest => if d = c then matchPieces fuel ps rest else none
      | [] => none
    | .optSlash :: ps =>
      match s with
      | '/' :: rest => (matchPieces fuel ps rest) <|> (matchPieces fuel ps s)
      | _ => matchPieces fuel ps s
    | .grp cls opt :: ps =>
      let m := (s.takeWhile cls.test).length
      let tries := (List.range m).map (fun i => m - i)
      match tries.findSome? (fun k =>
          (matchPieces fuel ps (s.drop k)).map (fun caps => some (s.take k) :: caps)) with
      | some r => some r
      | none => if opt then (matchPieces fuel ps s).map (fun caps => none :: caps) else none

/-- Run a generated route regex against a string (the `regex.exec` call of
`matchRoute`), yielding the captures on success. -/
def execPieces (pieces : List RPiece) (s : List Char) : Option Caps :=
  matchPieces (pieces.length + 1) pieces s

/-- State threaded through `createDynamicPattern`: the running optional-group
counter and the keys of the route's `pattern` record in insertion order. -/
structure DynCompState where
  optional : Nat
  keys : List String
deriving DecidableEq

/-- Error message thrown by `createDynamicPattern` when a mandatory variable
is processed after an optional one. -/
def mandatoryAfterOptionalMsg (path name : String) : String :=
  "mandatory variable " ++ name ++ " after an optional variable in " ++ path

/-- Embedding of the `processVariable` closure of `createDynamicPattern`.
Callers of the router in the verified claims supply no explicit per-variable
regex, so every variable receives the default pattern; a variable not yet in
the `pattern` record is appended to its keys. -/
def processVariable (path : String) (st : DynCompState) (name : String)
    (isOpt : Bool) : Except String (RPiece × DynCompState) :=
  let st := if st.keys.contains name then st else { st with keys := st.keys ++ [name] }
  if isOpt then
    .ok (.grp .wordDot true, { st with optional := st.optional + 1 })
  else if st.optional ≠ 0 then
    .error (mandatoryAfterOptionalMsg path name)
  else
    .ok (.grp .wordDot false, st)

/-- Element of the partially substituted path during pattern compilation:
an untouched character or an already substituted regex piece. -/
inductive PElem where
  | ch (c : Char)
  | pc (p : RPiece)
deriving DecidableEq

/-- First replace pass of `createDynamicPattern`: every occurrence of
`{name?}` (regex `{([^}?]+)\?}`) becomes an optional capturing group, scanned
left to right like the JavaScript engine. -/
def scanOptionalVars (path : String) : Nat → DynCompState → List Char →
    Except String (List PElem × DynCompState)
  | 0, st, l => .ok (l.map .ch, st)
  | _ + 1, st, [] => .ok ([], st)
  | fuel + 1, st, '{' :: rest =>
    let body := rest.takeWhile (fun c => c ≠ '}' && c ≠ '?')
    let after := rest.drop body.length
    if body ≠ [] ∧ after.take 2 = ['?', '}'] then
      match processVariable path st (String.mk body) true with
      | .error e => .error e
      | .ok (piece, st1) =>
        match scanOptionalVars path fuel st1 (after.drop 2) with
        | .ok (es, st2) => .ok (.pc piece :: es, st2)
        | .error e => .error e
    else
      match scanOptionalVars path fuel st rest with
      | .ok (es, st2) => .ok (.ch '{' :: es, st2)
      | .error e => .error e
  | fuel + 1, st, c :: rest =>
    match scanOptionalVars path fuel st rest with
    | .ok (es, st2) => .ok (.ch c :: es, st2)
    | .error e => .error e

/-- Length of the longest prefix of `es` made of plain characters other than
`}` (the `[^}]+` span of the second replace pass; substituted pieces contain
no brace, so the scan never crosses them). -/
def plainBodyTake : List PElem → List Char
  | .ch c :: rest => if c = '}' then [] else c :: plainBodyTake rest
  | _ => []

/-- Second replace pass of `createDynamicPattern`: every remaining `{name}`
(regex `{([^}]+)}`) becomes a mandatory capturing group; by now the optional
counter is final, so any mandatory variable in a path that also has an
optional variable throws. -/
def scanMandatoryVars (path : String) : Nat → DynCompState → List PElem →
    Except String (List PElem × DynCompState)
  | 0, st, l => .ok (l, st)
  | _ + 1, st, [] => .ok ([], st)
  | fuel + 1, st, .ch '{' :: rest =>
    let body := plainBodyTake rest
    let after := rest.drop body.length
    if body ≠ [] ∧ after.head? = some (.ch '}') then
      match processVariable path st (String.mk body) false with
      | .error e => .error e
      | .ok (piece, st1) =>
        match scanMandatoryVars path fuel st1 (after.drop 1) with
        | .ok (es, st2) => .ok (.pc piece :: es, st2)
        | .error e => .error e
    else
      match scanMandatoryVars path fuel st rest with
      | .ok (es, st2) => .ok (.ch '{' :: es, st2)
      | .error e => .error e
  | fuel + 1, st, e :: rest =>
    match scanMandatoryVars path fuel st rest with
    | .ok (es, st2) => .ok (e :: es, st2)
    | .error e => .error e

/-- The `.replace(/\/?$/, '\/?')` step: a trailing literal slash is absorbed
into the appended optional-slash piece. -/
def finishPieces (es : List PElem) : List RPiece :=
  let es := if es.getLast? = some (.ch '/') then es.dropLast else es
  es.map (fun e => match e with | .ch c => RPiece.lit c | .pc p => p) ++ [.optSlash]

/-- The segment count of `createDynamicPattern`:
`path.replace(/^\/|\/$/g, '').split('/').length` (empty segments from interior
double slashes count, and the empty string splits to one segment). -/
def jsSegmentLength (p : List Char) : Nat :=
  let p1 := if p.head? = some '/' then p.tail else p
  let p2 := if p1.getLast? = some '/' then p1.dropLast else p1
  (p2.splitOn '/').length

/-- Result of `createDynamicPattern`: the structured regex, the segment
count, the optional-variable count, and the final keys of the route's
`pattern` record. -/
structure DynPattern where
  pieces : List RPiece
  length : Nat
  optional : Nat
  keys : List String
deriving DecidableEq

/-- Embedding of `createDynamicPattern` (src/core/utils.ts): the two replace
passes over the path (optional variables first, then mandatory ones), the
trailing optional slash, and the segment count.  `pattern0` is the key list
of the caller-supplied `pattern` record (empty in every verified claim). -/
def createDynamicPattern (path : String) (pattern0 : List String) :
    Except String DynPattern :=
  let cs := path.data
  match scanOptionalVars path (cs.length + 1) { optional := 0, keys := pattern0 } cs with
  | .error e => .error e
  | .ok (es, st1) =>
    match scanMandatoryVars path (es.length + 1) st1 es with
    | .error e => .error e
    | .ok (es2, st2) =>
      .ok { pieces := finishPieces es2
            length := jsSegmentLength cs
            optional := st2.optional
            keys := st2.keys }

/-- A normalized route record (lib/core/router-registry.ts).  `rid` stands for
the object identity of the route, used by parent links and matched chains;
`patternKeys` are the keys of the route's `pattern` record in insertion order;
`redirect` models a static string redirect (`redirect` callbacks are not
exercised by the verified claims). -/
structure RouteN where
  rid : Nat
  path : String
  name : Option String
  suffix : SuffixPolicy
  widget : Bool
  redirect : Option String
  patternKeys : List String
deriving DecidableEq

/-- A `DynamicRouteRecord`: the compiled regex together with the route. -/
structure DynEntry where
  pieces : List RPiece
  route : RouteN
deriving DecidableEq

/-- Look up a key in a JavaScript `Map` modelled as an association list. -/
def alistFind? {α : Type} (l : List (String × α)) (k : String) : Option α :=
  (l.find? (fun kv => kv.1 = k)).map (·.2)

/-- `Map.set`: overwrite an existing key in place, else append. -/
def alistSet {α : Type} (l : List (String × α)) (k : String) (v : α) :
    List (String × α) :=
  if l.any (fun kv => kv.1 = k) then
    l.map (fun kv => if kv.1 = k then (k, v) else kv)
  else l ++ [(k, v)]

/-- Look up a bucket of the dynamic-route map (keys are the possibly negative
segment counts produced by `length - i`). -/
def bucketFind? (l : List (Int × List DynEntry)) (k : Int) : Option (List DynEntry) :=
  (l.find? (fun kv => kv.1 = k)).map (·.2)

/-- Append an entry to a dynamic-route bucket, creating the bucket if absent
(`addToLengthMap` in `recordDynamicRoute`). -/
def bucketPush (l : List (Int × List DynEntry)) (k : Int) (e : DynEntry) :
    List (Int × List DynEntry) :=
  if l.any (fun kv => kv.1 = k) then
    l.map (fun kv => if kv.1 = k then (k, kv.2 ++ [e]) else kv)
  else l ++ [(k, [e])]

/-- The three indices of `RouterRegistry` plus the parent relation
(`_parentRoute`, a weak map keyed by route identity) and the id-indexed
route store standing for the object heap. -/
structure Registry where
  namedRoutes : List (String × RouteN)
  pathRoutes : List (String × RouteN)
  dynamicRoutes : List (Int × List DynEntry)
  parentOf : List (Nat × Nat)
  allRoutes : List RouteN
deriving DecidableEq

/-- The empty registry. -/
def Registry.empty : Registry :=
  { namedRoutes := [], pathRoutes := [], dynamicRoutes := [], parentOf := [], allRoutes := [] }

/-- Dereference a route id (object identity) to its current record. -/
def findRouteById (reg : Registry) (rid : Nat) : Option RouteN :=
  reg.allRoutes.find? (fun r => r.rid = rid)

/-- `strictPath`: lower-case the path unless in strict mode. -/
def strictPath (strict : Bool) (p : String) : String :=
  if strict then p else toLowerStr p

/-- Replace the stored record of a route in every index that aliases it
(in the source all indices hold the same mutable object, so filling the
route's `pattern` during dynamic compilation is visible everywhere). -/
def updateRouteValue (reg : Registry) (r : RouteN) : Registry :=
  let upd := fun (x : RouteN) => if x.rid = r.rid then r else x
  { reg with
    namedRoutes := reg.namedRoutes.map (fun kv => (kv.1, upd kv.2))
    pathRoutes := reg.pathRoutes.map (fun kv => (kv.1, upd kv.2))
    allRoutes := reg.allRoutes.map upd }

/-- Embedding of `recordDynamicRoute` (lib/core/router-registry.ts):
compile the pattern (which may throw) and register the entry under its full
segment count and under every count obtained by dropping 1..optional trailing
optional variables. -/
def recordDynamicRoute (reg : Registry) (route : RouteN) : Except String Registry :=
  match createDynamicPattern route.path route.patternKeys with
  | .error e => .error e
  | .ok dp =>
    let routeF := { route with patternKeys := dp.keys }
    let reg1 := updateRouteValue reg routeF
    let entry : DynEntry := { pieces := dp.pieces, route := routeF }
    let lens := (Int.ofNat dp.length) :: (List.range dp.optional).map
      (fun i => Int.ofNat dp.length - (Int.ofNat i + 1))
    .ok { reg1 with dynamicRoutes :=
            lens.foldl (fun m len => bucketPush m len entry) reg1.dynamicRoutes }

/-- Drop one leading slash of a route name
(`route.name.replace(/^\//, '')`, applied with a warning). -/
def stripLeadingSlashName (n : String) : String :=
  match n.data with
  | '/' :: rest => String.mk rest
  | _ => n

/-- Second half of `recordRoute`: the path index and the dynamic map.  At
this point the name (when present) is already inserted, so a duplicate-path
throw leaves that insertion behind. -/
def recordRoutePath (strict : Bool) (reg : Registry) (route : RouteN) :
    Registry × Option String :=
  let path := strictPath strict route.path
  if (alistFind? reg.pathRoutes path).isSome then
    (reg, some "duplicate route path")
  else
    let reg2 := { reg with
      pathRoutes := alistSet reg.pathRoutes path route
      allRoutes := reg.allRoutes ++ [route] }
    if isVariablePathChars route.path.data then
      match recordDynamicRoute reg2 route with
      | .ok reg3 => (reg3, none)
      | .error e => (reg2, some e)
    else (reg2, none)

/-- Embedding of `recordRoute` (lib/core/router-registry.ts).  The name is
checked and inserted first; only then is the path checked, so a duplicate
path throws after the name map has already been extended.  The returned
`Option String` is the thrown error, and the returned registry is the state
the indices are left in. -/
def recordRoute (strict : Bool) (reg : Registry) (route : RouteN) :
    Registry × Option String :=
  match route.name with
  | some n0 =>
    let n := if n0.data.head? = some '/' then stripLeadingSlashName n0 else n0
    let route1 := { route with name := some n }
    if (alistFind? reg.namedRoutes n).isSome then
      (reg, some "duplicate route name")
    else
      recordRoutePath strict
        { reg with namedRoutes := alistSet reg.namedRoutes n route1 } route1
  | none => recordRoutePath strict reg route

/-- Segment count used by `matchRoute`:
`shortPath.split('/').filter(Boolean).length`. -/
def nonEmptySegCount (p : List Char) : Nat :=
  ((p.splitOn '/').filter (fun seg => seg ≠ [])).length

/-- A `MatchResult` of `matchRoute`: the route and, for a dynamic match, the
positional parameters. -/
structure MatchResult where
  route : RouteN
  params : Option Params
deriving DecidableEq

/-- Test one dynamic entry (the body of the candidate loop of `matchRoute`):
run the regex against the path with a trailing slash, bind captures
positionally to the keys of the route's `pattern` record, then validate the
suffix (note the source passes the formatted path for both arguments here). -/
def tryDynEntry (shortPath : List Char) (suffix formatted : String)
    (e : DynEntry) : Option MatchResult :=
  match execPieces e.pieces (shortPath ++ ['/']) with
  | none => none
  | some caps =>
    let ps : Params := (List.range e.route.patternKeys.length).map
      (fun i => (e.route.patternKeys.getD i "", ((caps.getD i none).map String.mk)))
    if validateSuffix suffix e.route.suffix formatted formatted then
      some { route := e.route, params := some ps }
    else none

/-- The static-map probe of `matchRoute` for a given key. -/
def tryStaticKey (reg : Registry) (key : String) (suffix formatted : String) :
    Option MatchResult :=
  match alistFind? reg.pathRoutes key with
  | some r =>
    if validateSuffix suffix r.suffix formatted r.path then
      some { route := r, params := none }
    else none
  | none => none

/-- The formatted, case-folded path `matchRoute` operates on. -/
def matchFormatted (strict : Bool) (path : String) : String :=
  if strict then formatPath path else toLowerStr (formatPath path)

/-- The suffix-free part of the formatted path. -/
def matchShortChars (strict : Bool) (path : String) : List Char :=
  (splitPathAndSuffix (matchFormatted strict path).data).1

/-- The suffix split off the formatted path. -/
def matchSuffix (strict : Bool) (path : String) : String :=
  String.mk (splitPathAndSuffix (matchFormatted strict path).data).2

/-- The implicit-index retry of `matchRoute` and its `/index` → `/`
counterpart (the final `if`/`else if` of the source). -/
def tryIndexFallback (strict : Bool) (reg : Registry) (path : String) :
    Option MatchResult :=
  let formatted := matchFormatted strict path
  let sp := matchShortChars strict path
  let suffix := matchSuffix strict path
  let shortPath := String.mk sp
  if suffix = "" && !(List.isSuffixOf "/index".data sp) then
    tryStaticKey reg ((if shortPath = "/" then "" else shortPath) ++ "/index")
      suffix formatted
  else if shortPath = "/index" then
    tryStaticKey reg "/" suffix formatted
  else none

/-- Embedding of `matchRoute` (lib/core/router-registry.ts): format and
case-fold the path, split off the suffix, try the static map, then the
dynamic bucket of the path's segment count in registration order, then the
implicit `<path>/index` route (or `/` for `/index`). -/
def matchRoute (strict : Bool) (reg : Registry) (path : String) :
    Option MatchResult :=
  let formatted := matchFormatted strict path
  let sp := matchShortChars strict path
  let suffix := matchSuffix strict path
  match tryStaticKey reg (String.mk sp) suffix formatted with
  | some res => some res
  | none =>
    let bucket := (bucketFind? reg.dynamicRoutes (Int.ofNat (nonEmptySegCount sp))).getD []
    match bucket.findSome? (tryDynEntry sp suffix formatted) with
    | some res => some res
    | none => tryIndexFallback strict reg path

/-- History mode of the router. -/
inductive HistoryMode where
  | path
  | hash
  | memory
deriving DecidableEq

/-- The construction-time options the navigation engine reads. -/
structure SysOptions where
  base : String
  strict : Bool
  mode : HistoryMode
  suffix : SuffixPolicy
deriving DecidableEq

/-- A router system: options plus the (already populated) registry. -/
structure Sys where
  options : SysOptions
  reg : Registry
deriving DecidableEq

/-- A `RouteLocation` value.  `matched` is the chain of route identities
(the source stores the route objects themselves, by reference); `meta` is
omitted because every verified scenario uses empty metadata. -/
structure Loc where
  index : String
  path : String
  hash : String
  fullPath : String
  params : Params
  query : List (String × String)
  matched : List Nat
deriving DecidableEq

/-- A `RouteTarget` argument of `navigate`/`push`/`replace`. -/
structure TargetSpec where
  index : String
  params : Params
  query : List (String × String)
  hash : String
  isReplace : Option Bool
deriving DecidableEq

/-- A plain target by index with all optional fields absent. -/
def mkTarget (index : String) : TargetSpec :=
  { index := index, params := [], query := [], hash := "", isReplace := none }

/-- What `navigate` may be handed: a target object, or an existing
`RouteLocation` (the `isRouteLocationTypeObject` branch, used by `go`). -/
inductive NavInput where
  | target (t : TargetSpec)
  | loc (l : Loc)
deriving DecidableEq

/-- The `index` of a navigation input (`_target.index`). -/
def NavInput.index : NavInput → String
  | .target t => t.index
  | .loc l => l.index

/-- The `isReplace` flag of a navigation input; absent reads as `false`. -/
def NavInput.isReplace : NavInput → Bool
  | .target t => t.isReplace.getD false
  | .loc _ => false

/-- Embedding of `formatHash(hash, true)`: the empty string stays empty, a
non-empty hash is trimmed and given a leading `#`. -/
def formatHash (h : String) : String :=
  if h = "" then "" else
  let t := String.mk (((h.data.dropWhile isJsWhitespace).reverse.dropWhile isJsWhitespace).reverse)
  if t.data.head? = some '#' then t else "#" ++ t

/-- Embedding of `objectToQueryString` for the simple queries the claims
exercise (URL-encoding of special characters is not modelled). -/
def objectToQueryString (q : List (String × String)) : String :=
  match q with
  | [] => ""
  | _ => "?" ++ String.intercalate "&" (q.map (fun kv => kv.1 ++ "=" ++ kv.2))

/-- Embedding of `makeFullPath` (lib/core/router-core.ts). -/
def makeFullPath (sys : Sys) (path : String) (q : List (String × String))
    (hash : String) : String :=
  let hash := if hash ≠ "" && hash.data.head? ≠ some '#' then "#" ++ hash else hash
  let qs := objectToQueryString q
  if sys.options.mode = .hash then
    formatPath (sys.options.base ++ "/#" ++ path ++ qs ++ hash)
  else
    formatPath (sys.options.base ++ path ++ qs ++ hash)

/-- Look up a route id in the parent relation. -/
def alistFindNat (l : List (Nat × Nat)) (k : Nat) : Option Nat :=
  (l.find? (fun kv => kv.1 = k)).map (·.2)

/-- Walk the parent relation upward collecting, root first, every ancestor
that carries a widget (the `while (parent)` loop of `createRouteLocation`). -/
def parentChain (reg : Registry) : Nat → Nat → List Nat
  | 0, _ => []
  | fuel + 1, rid =>
    match alistFindNat reg.parentOf rid with
    | some pid =>
      match findRouteById reg pid with
      | some p =>
        if p.widget then parentChain reg fuel pid ++ [pid]
        else parentChain reg fuel pid
      | none => []
    | none => []

/-- Embedding of `findRoute` (lib/core/router-registry.ts) combined with the
parameter merge it performs on the target: a `/`-prefixed index goes through
`matchRoute` (merging matched parameters into the target's), anything else
through the name map. -/
def findRouteForTarget (sys : Sys) (t : TargetSpec) :
    Option (RouteN × Params) :=
  if t.index.data.head? = some '/' then
    match matchRoute sys.options.strict sys.reg t.index with
    | some m =>
      match m.params with
      | some mp => some (m.route, assignParams t.params mp)
      | none => some (m.route, t.params)
    | none => none
  else
    (alistFind? sys.reg.namedRoutes t.index).map (fun r => (r, t.params))

/-- Embedding of `createRouteLocation` (lib/core/router-core.ts).  A missing
mandatory path parameter makes `mergePathParams` throw; the throw is returned
as `Except.error` — in the source it happens before the `try` block of
`performNavigation`. -/
def createRouteLocation (sys : Sys) (inp : NavInput) : Except String Loc :=
  match inp with
  | .loc l => .ok l
  | .target t =>
    match findRouteForTarget sys t with
    | some (route, params) =>
      let sfx := String.mk (getPathSuffixChars t.index.data)
      let pathE :=
        if sys.options.suffix.truthy && sfx ≠ "" && !(List.isSuffixOf sfx.data route.path.data) then
          mergePathParams (route.path ++ sfx) params
        else
          mergePathParams route.path params
      match pathE with
      | .error e => .error e
      | .ok p =>
        let hashStr := formatHash t.hash
        .ok { index := t.index, path := p, hash := hashStr,
              fullPath := makeFullPath sys p t.query hashStr,
              params := params, query := t.query,
              matched := parentChain sys.reg (sys.reg.allRoutes.length + 1) route.rid ++ [route.rid] }
    | none =>
      let p := formatPath t.index
      let hashStr := formatHash t.hash
      .ok { index := t.index, path := p, hash := hashStr,
            fullPath := makeFullPath sys p t.query hashStr,
            params := t.params, query := t.query, matched := [] }

/-- Terminal status of a navigation (`NavigateStatus`). -/
inductive NavStatus where
  | success
  | aborted
  | cancelled
  | duplicated
  | notMatched
  | exception
deriving DecidableEq

/-- Value a before-guard resolves to: `false`, a new target object, or
anything else (`true`, `undefined`, a string) which lets the navigation
continue. -/
inductive GuardVal where
  | gFalse
  | gTarget (t : TargetSpec)
  | gVoid
deriving DecidableEq

/-- Outcome of awaiting the before-guard: a value, or a thrown error. -/
inductive GuardRet where
  | value (v : GuardVal)
  | raise (e : String)
deriving DecidableEq

/-- Environment of one before-guard invocation: what the awaited call
resolves to and the value `_currentTaskId` holds at that moment (a newer
`navigate` call bumps it during the await). -/
structure NavEnv where
  ret : GuardRet
  taskAtResolve : Nat
deriving DecidableEq

/-- A `NavigateResult` (message text omitted). -/
structure NavResult where
  status : NavStatus
  fromLoc : Loc
  toLoc : Loc
  redirectFrom : Option NavInput
  error : Option String
deriving DecidableEq

/-- Observable shared-state effects of one `navigate` call: how many times
the before-guard was invoked, and the history writes (each write also sets
the corresponding pending marker in the same branch). -/
structure NavTrace where
  guardCalls : Nat
  writes : List (Bool × Loc)
deriving DecidableEq

/-- Ways the returned promise fails to produce a `NavigateResult`:
`rejected` is an exception thrown outside the `try` block (the promise
rejects); `outOfFuel` and `noEnv` are artifacts of the finite model (a
redirect chain longer than the supplied fuel, or more guard invocations than
supplied environments) and are excluded by the theorems. -/
inductive NavAbort where
  | rejected (e : String)
  | outOfFuel
  | noEnv
deriving DecidableEq

/-- The commit step of `performNavigation` (steps 7 and 8): an empty matched
chain terminates with `not_matched`, otherwise the pending marker is set and
the history backend invoked. -/
def commitStep (mkRes : NavStatus → Option String → NavResult)
    (tgt : NavInput) (toLoc2 : Loc) : NavResult × NavTrace :=
  if toLoc2.matched = [] then (mkRes .notMatched none, { guardCalls := 1, writes := [] })
  else (mkRes .success none, { guardCalls := 1, writes := [(tgt.isReplace, toLoc2)] })

/-- Embedding of the `performNavigation` closure of `navigate`
(lib/core/router-core.ts).  Arguments mirror the captured state: the task id
of this call, the `from` snapshot, the live location read by the duplicate
check and guard, and the original outer `target` used for `redirectFrom`.
`envs` supplies one `NavEnv` per guard invocation; `fuel` bounds redirect
recursion.  The result is the resolved `NavigateResult` with the effect
trace, or the rejection of the promise. -/
def performNavigation (sys : Sys) (taskId : Nat) (fromLoc liveLoc : Loc)
    (origTarget : NavInput) :
    Nat → List NavEnv → NavInput → Bool → Except NavAbort (NavResult × NavTrace)
  | 0, _, _, _ => .error .outOfFuel
  | fuel + 1, envs, tgt, isRedirect =>
    match createRouteLocation sys tgt with
    | .error e => .error (.rejected e)
    | .ok toLoc2 =>
      let mkRes : NavStatus → Option String → NavResult := fun st err =>
        { status := st, fromLoc := fromLoc, toLoc := toLoc2,
          redirectFrom := if isRedirect then some origTarget else none,
          error := err }
      match (toLoc2.matched.getLast?.bind (findRouteById sys.reg)).bind RouteN.redirect with
      | some rd =>
        performNavigation sys taskId fromLoc liveLoc origTarget fuel envs
          (.target (mkTarget rd)) true
      | none =>
        if toLoc2 = liveLoc then
          .ok (mkRes .duplicated none, { guardCalls := 0, writes := [] })
        else
          match envs with
          | [] => .error .noEnv
          | env :: envrest =>
            let one : NavTrace := { guardCalls := 1, writes := [] }
            match env.ret with
            | .raise e => .ok (mkRes .exception (some e), one)
            | .value .gFalse => .ok (mkRes .aborted none, one)
            | .value v =>
              if env.taskAtResolve ≠ taskId then
                .ok (mkRes .cancelled none, one)
              else
                match v with
                | .gTarget t2 =>
                  if t2.index ≠ tgt.index then
                    match performNavigation sys taskId fromLoc liveLoc origTarget fuel
                        envrest (.target { t2 with isReplace := some (t2.isReplace.getD false) })
                        true with
                    | .ok (r, tr) =>
                      .ok (r, { guardCalls := tr.guardCalls + 1, writes := tr.writes })
                    | .error e => .error e
                  else .ok (commitStep mkRes tgt toLoc2)
                | _ => .ok (commitStep mkRes tgt toLoc2)

/-- Task-counter state of the engine. -/
structure TaskState where
  taskCounter : Nat
  currentTaskId : Nat
deriving DecidableEq

/-- Embedding of `navigate` (lib/core/router-core.ts): allocate the next task
id, snapshot the live location as `from` (a deep copy), and run
`performNavigation` on the target. -/
def navigateM (sys : Sys) (live : Loc) (ts : TaskState) (target : NavInput)
    (envs : List NavEnv) (fuel : Nat) :
    Except NavAbort (NavResult × NavTrace) × TaskState :=
  let taskId := ts.taskCounter + 1
  (performNavigation sys taskId live live target fuel envs target false,
   { taskCounter := taskId, currentTaskId := taskId })

/-- A slot of the in-memory history array.  `live` is a reference to the one
live reactive `RouteLocation` object (whose fields are patched in place and
whose identity never changes); `obj` is any other stored location object.
`Array.prototype.indexOf` compares references, which this sum type mirrors. -/
inductive HRef where
  | live
  | obj (l : Loc)
deriving DecidableEq

/-- State of `MemoryRouter` (lib/router/memory-router.ts) together with the
engine state it closes over. -/
structure MemState where
  live : Loc
  history : List HRef
  pendingGo : Option Nat
  task : TaskState
deriving DecidableEq

/-- Dereference a history slot to its location value. -/
def hrefLoc (s : MemState) : HRef → Loc
  | .live => s.live
  | .obj l => l

/-- `currentIndex`: `this._history.indexOf(this.currentRouteLocation)` —
reference equality against the live object, `-1` when absent. -/
def memCurrentIndex (s : MemState) : Int :=
  match s.history.findIdx? (fun h => h = HRef.live) with
  | some i => Int.ofNat i
  | none => -1

/-- Initial memory-router state: the live location seeded from the base path
(`RouterCore` constructor) and a history holding a reference to it
(`initializeRouter`). -/
def memInit (sys : Sys) : MemState :=
  { live := { index := sys.options.base, path := sys.options.base, hash := "",
              fullPath := sys.options.base, params := [], query := [], matched := [] }
    history := [.live]
    pendingGo := none
    task := { taskCounter := 0, currentTaskId := 0 } }

/-- Embedding of `_updateHistory` followed by the `completeNavigation` call it
makes: write the slot dictated by `_pendingGo` / replace / push semantics
(push truncates any forward history), then patch the live location to the new
value and clear `_pendingGo`.  A replace with the live object absent from the
array (index `-1`) writes a non-index property in JavaScript, which no later
read observes; it is modelled as leaving the array unchanged. -/
def memUpdateHistory (s : MemState) (data : Loc) (isReplace : Bool) : MemState :=
  let hist :=
    match s.pendingGo with
    | some t => s.history.set t (.obj data)
    | none =>
      if isReplace then
        match memCurrentIndex s with
        | .ofNat i => s.history.set i (.obj data)
        | _ => s.history
      else
        let next := memCurrentIndex s + 1
        if next < Int.ofNat s.history.length then
          (s.history.set next.toNat (.obj data)).take (next.toNat + 1)
        else
          s.history ++ [.obj data]
  { s with live := data, history := hist, pendingGo := none }

/-- Run one `navigate` call against the memory backend and apply its history
writes (`pushHistory`/`replaceHistory` run synchronously inside `navigate`
for this adapter). -/
def memNavigate (sys : Sys) (s : MemState) (inp : NavInput) (envs : List NavEnv)
    (fuel : Nat) : MemState × Option NavResult :=
  let res := navigateM sys s.live s.task inp envs fuel
  let s1 := { s with task := res.2 }
  match res.1 with
  | .ok (r, tr) =>
    match tr.writes with
    | [(isRep, loc)] => (memUpdateHistory s1 loc isRep, some r)
    | _ => (s1, some r)
  | .error _ => (s1, none)

/-- `push(target)`: navigate with `isReplace = false`. -/
def memPush (sys : Sys) (s : MemState) (t : TargetSpec) (envs : List NavEnv)
    (fuel : Nat) : MemState × Option NavResult :=
  memNavigate sys s (.target { t with isReplace := some false }) envs fuel

/-- Embedding of `MemoryRouter.go` (lib/router/memory-router.ts): a zero or
absent delta returns at once; the target index is clamped into range; a
clamped target equal to the current index returns without navigating;
otherwise the stored entry is re-navigated to with `_pendingGo` set, and a
non-success result clears `_pendingGo` again. -/
def memGo (sys : Sys) (s : MemState) (delta : Int) (envs : List NavEnv)
    (fuel : Nat) : MemState × Option NavResult :=
  if delta = 0 then (s, none) else
  let cur := memCurrentIndex s
  let target := max 0 (min (Int.ofNat s.history.length - 1) (cur + delta))
  if target = cur then (s, none) else
  match s.history.get? target.toNat with
  | none => (s, none)
  | some href =>
    let s1 := { s with pendingGo := some target.toNat }
    match memNavigate sys s1 (.loc (hrefLoc s1 href)) envs fuel with
    | (s2, some r) =>
      if r.status ≠ .success then ({ s2 with pendingGo := none }, some r)
      else (s2, some r)
    | (s2, none) => (s2, none)

/-- Normal form established by `formatPath`: leading slash, no whitespace, no
double slash, and no trailing slash except for the root `/` and the hash root
`/#/`. -/
def isNormalPath (l : List Char) : Bool :=
  l.head? = some '/' && noDoubleSlash l && l.all (fun c => !isJsWhitespace c) &&
  (l = ['/'] || l = ['/', '#', '/'] || l.getLast? ≠ some '/')

/-- Status projection of a navigation outcome. -/
def navStatusOf (x : Except NavAbort (NavResult × NavTrace)) : Option NavStatus :=
  match x with
  | .ok (r, _) => some r.status
  | .error _ => none

/-- Concrete scenario: a plain static route `/a`. -/
def routeA : RouteN :=
  { rid := 1, path := "/a", name := none, suffix := .star,
    widget := true, redirect := none, patternKeys := [] }

/-- Concrete scenario: a plain static route `/b`. -/
def routeB : RouteN :=
  { rid := 2, path := "/b", name := none, suffix := .star,
    widget := true, redirect := none, patternKeys := [] }

/-- Registry holding `/a` and `/b`. -/
def regAB : Registry :=
  (recordRoute false (recordRoute false Registry.empty routeA).1 routeB).1

/-- Memory-mode system over `/a` and `/b`. -/
def sysAB : Sys :=
  { options := { base := "/", strict := false, mode := .memory, suffix := .star },
    reg := regAB }

/-- The initial live location of `sysAB`. -/
def locBase : Loc := (memInit sysAB).live

/-- Navigation input for `/a`. -/
def inA : NavInput := .target (mkTarget "/a")

/-- The candidate location `/a` resolves to under `sysAB`. -/
def locA : Loc := (createRouteLocation sysAB inA).toOption.getD locBase

/-- Concrete scenario: named dynamic route `user` at `/u/{id}`. -/
def routeUser : RouteN :=
  { rid := 3, path := "/u/{id}", name := some "user", suffix := .star,
    widget := true, redirect := none, patternKeys := [] }

/-- System additionally holding the `user` route. -/
def sysUser : Sys :=
  { options := { base := "/", strict := false, mode := .memory, suffix := .star },
    reg := (recordRoute false regAB routeUser).1 }

/-- Concrete scenario: route `/r` with a static redirect to `/s`. -/
def routeR : RouteN :=
  { rid := 4, path := "/r", name := none, suffix := .star,
    widget := true, redirect := some "/s", patternKeys := [] }

/-- Concrete scenario: the redirect target route `/s`. -/
def routeS : RouteN :=
  { rid := 5, path := "/s", name := none, suffix := .star,
    widget := true, redirect := none, patternKeys := [] }

/-- System with the redirecting route `/r` and its target `/s`. -/
def sysRS : Sys :=
  { options := { base := "/", strict := false, mode := .memory, suffix := .star },
    reg := (recordRoute false (recordRoute false regAB routeS).1 routeR).1 }

/-- Guard environment: resolve with no value while the task is still current
(task id 1). -/
def envOk1 : NavEnv := { ret := .value .gVoid, taskAtResolve := 1 }

/-- Guard environment: resolve with no value after task 2 has started. -/
def envStaleVoid : NavEnv := { ret := .value .gVoid, taskAtResolve := 2 }

/-- Guard environment: resolve `false` after task 2 has started. -/
def envStaleFalse : NavEnv := { ret := .value .gFalse, taskAtResolve := 2 }

/-- Concrete scenario for C3: route `/a/{b?}/{c?}` with two trailing optional
variables. -/
def routeABC : RouteN :=
  { rid := 6, path := "/a/{b?}/{c?}", name := none, suffix := .star,
    widget := true, redirect := none, patternKeys := [] }

/-- Registry holding only `/a/{b?}/{c?}`. -/
def regABC : Registry := (recordRoute false Registry.empty routeABC).1

/-- Concrete scenario for C6: the already registered route `/home`. -/
def routeHome : RouteN :=
  { rid := 7, path := "/home", name := some "home", suffix := .star,
    widget := true, redirect := none, patternKeys := [] }

/-- Registry holding `/home`. -/
def regHome : Registry := (recordRoute false Registry.empty routeHome).1

/-- Concrete scenario for C6: a route with a fresh name but the duplicate
path `/home`. -/
def routeDupPath : RouteN :=
  { rid := 8, path := "/home", name := some "other", suffix := .star,
    widget := true, redirect := none, patternKeys := [] }

/-- C8 scenario: the memory state after `push('/a')` from the initial
state. -/
def memS1 : MemState :=
  (memPush sysAB (memInit sysAB) (mkTarget "/a") [envOk1] 5).1

/-- C8 scenario: the memory state after the second push, `push('/b')`. -/
def memS2 : MemState :=
  (memPush sysAB memS1 (mkTarget "/b") [{ ret := .value .gVoid, taskAtResolve := 2 }] 5).1

/-- C8 scenario: the `go(-1)` call issued after the two pushes. -/
def memGoBack : MemState × Option NavResult :=
  memGo sysAB memS2 (-1) [{ ret := .value .gVoid, taskAtResolve := 3 }] 5

/-- C5 witness scenario: static route `/p` that shadows a dynamic shape. -/
def routeP : RouteN :=
  { rid := 9, path := "/p", name := none, suffix := .star,
    widget := true, redirect := none, patternKeys := [] }

/-- C5 witness scenario: dynamic route `/{x}` registered first. -/
def routeX : RouteN :=
  { rid := 10, path := "/{x}", name := none, suffix := .star,
    widget := true, redirect := none, patternKeys := [] }

/-- C5 witness scenario: dynamic route `/{y}` registered second, with the
same shape as `/{x}`. -/
def routeY : RouteN :=
  { rid := 11, path := "/{y}", name := none, suffix := .star,
    widget := true, redirect := none, patternKeys := [] }

/-- C5 witness registry: `/p` static, then `/{x}` and `/{y}` dynamic (same
single-segment bucket, registration order `x` before `y`). -/
def regPXY : Registry :=
  (recordRoute false (recordRoute false (recordRoute false Registry.empty routeP).1 routeX).1
    routeY).1

/-- C6 witness scenario: a route whose name `home` collides with the one
registered in `regHome` (its path is fresh). -/
def routeDupName : RouteN :=
  { rid := 12, path := "/elsewhere", name := some "home", suffix := .star,
    widget := true, redirect := none, patternKeys := [] }

/-- The single-segment dynamic bucket of `regPXY`. -/
def bucketPXY : List DynEntry := (bucketFind? regPXY.dynamicRoutes 1).getD []

/-- Placeholder entry used only as a `getD` default. -/
def dynFallbackEntry : DynEntry := { pieces := [], route := routeP }

/-- First entry of the `regPXY` bucket (the earlier-registered `/{x}`). -/
def entryX : DynEntry := bucketPXY.getD 0 dynFallbackEntry

/-- Second entry of the `regPXY` bucket (the later-registered `/{y}`). -/
def entryY : DynEntry := bucketPXY.getD 1 dynFallbackEntry

/-- The match result `/q` produces against `entryX`. -/
def resQX : MatchResult :=
  (tryDynEntry (matchShortChars false "/q") (matchSuffix false "/q")
    (matchFormatted false "/q") entryX).getD { route := routeP, params := none }

theorem collapseSlashes_cons_cons (a b : Char) (rest : List Char) :
    collapseSlashes (a :: b :: rest) =
      if a = '/' ∧ b = '/' then collapseSlashes (b :: rest)
      else a :: collapseSlashes (b :: rest) := by
  by_cases h : a = '/' ∧ b = '/'
  · simp only [collapseSlashes, if_pos h]
    rw [if_pos]
    simp [h.1, h.2]
  · simp only [collapseSlashes, if_neg h]
    rw [if_neg]
    simp only [Bool.and_eq_true, decide_eq_true_eq]
    exact h

theorem collapseSlashes_cons (c : Char) (l : List Char) :
    ∃ t, collapseSlashes (c :: l) = c :: t := by
  induction l generalizing c with
  | nil => exact ⟨[], rfl⟩
  | cons b rest ih =>
    rw [collapseSlashes_cons_cons]
    by_cases h : c = '/' ∧ b = '/'
    · rw [if_pos h]
      obtain ⟨t, ht⟩ := ih b
      exact ⟨t, by rw [ht, h.1, h.2]⟩
    · rw [if_neg h]
      exact ⟨collapseSlashes (b :: rest), rfl⟩

theorem noDoubleSlash_collapseSlashes (l : List Char) :
    noDoubleSlash (collapseSlashes l) = true := by
  induction l with
  | nil => rfl
  | cons a l ih =>
    cases l with
    | nil => rfl
    | cons b rest =>
      rw [collapseSlashes_cons_cons]
      by_cases h : a = '/' ∧ b = '/'
      · rw [if_pos h]; exact ih
      · rw [if_neg h]
        obtain ⟨t, ht⟩ := collapseSlashes_cons b rest
        rw [ht]
        rw [ht] at ih
        simp only [noDoubleSlash, Bool.and_eq_true] at ih ⊢
        refine ⟨?_, ih⟩
        simp only [Bool.not_eq_true', Bool.and_eq_true, decide_eq_true_eq]
        by_contra hc
        simp only [Bool.not_eq_false, Bool.and_eq_true, decide_eq_true_eq] at hc
        exact h hc

theorem collapseSlashes_eq_self (l : List Char) (h : noDoubleSlash l = true) :
    collapseSlashes l = l := by
  induction l with
  | nil => rfl
  | cons a l ih =>
    cases l with
    | nil => rfl
    | cons b rest =>
      simp only [noDoubleSlash, Bool.and_eq_true] at h
      have h1 : ¬(a = '/' ∧ b = '/') := by
        intro hab
        simp [hab.1, hab.2] at h
      rw [collapseSlashes_cons_cons, if_neg h1, ih h.2]

theorem mem_collapseSlashes (c : Char) (l : List Char)
    (h : c ∈ collapseSlashes l) : c ∈ l := by
  induction l with
  | nil => simp [collapseSlashes] at h
  | cons a l ih =>
    cases l with
    | nil => simpa [collapseSlashes] using h
    | cons b rest =>
      rw [collapseSlashes_cons_cons] at h
      by_cases hab : a = '/' ∧ b = '/'
      · rw [if_pos hab] at h
        exact List.mem_cons_of_mem a (ih h)
      · rw [if_neg hab] at h
        rcases List.mem_cons.mp h with h1 | h1
        · exact h1 ▸ List.mem_cons_self c _
        · exact List.mem_cons_of_mem a (ih h1)

theorem noDoubleSlash_dropLast (l : List Char) (h : noDoubleSlash l = true) :
    noDoubleSlash l.dropLast = true := by
  induction l with
  | nil => rfl
  | cons a l ih =>
    cases l with
    | nil => rfl
    | cons b rest =>
      cases rest with
      | nil => rfl
      | cons c rest2 =>
        have hsplit : noDoubleSlash (a :: b :: c :: rest2) =
            (!(a = '/' && b = '/') && noDoubleSlash (b :: c :: rest2)) := rfl
        rw [hsplit, Bool.and_eq_true] at h
        have ihr := ih h.2
        simp only [List.dropLast_cons₂] at ihr ⊢
        have hsplit2 : noDoubleSlash (a :: b :: (c :: rest2).dropLast) =
            (!(a = '/' && b = '/') && noDoubleSlash (b :: (c :: rest2).dropLast)) := rfl
        rw [hsplit2, Bool.and_eq_true]
        refine ⟨h.1, ?_⟩
        simpa [List.dropLast_cons₂] using ihr

theorem noDoubleSlash_append_slashes (xs : List Char) :
    noDoubleSlash (xs ++ ['/', '/']) = false := by
  induction xs with
  | nil => rfl
  | cons a xs ih =>
    cases xs with
    | nil =>
      simp only [List.nil_append, List.cons_append, noDoubleSlash]
      simp [noDoubleSlash]
    | cons b rest =>
      have hsplit : noDoubleSlash (a :: b :: (rest ++ ['/', '/'])) =
          (!(a = '/' && b = '/') && noDoubleSlash (b :: (rest ++ ['/', '/']))) := rfl
      simp only [List.cons_append]
      rw [hsplit]
      simp only [List.cons_append] at ih
      rw [ih]
      simp

theorem getLast?_dropTrailingSlash (l : List Char) (h : noDoubleSlash l = true)
    (hne : l ≠ ['/']) : (dropTrailingSlash l).getLast? ≠ some '/' := by
  unfold dropTrailingSlash
  by_cases hl : l.getLast? = some '/'
  · rw [if_pos hl]
    obtain ⟨t, ht⟩ := List.getLast?_eq_some_iff.mp hl
    subst ht
    rw [List.dropLast_concat]
    intro hc
    obtain ⟨t2, ht2⟩ := List.getLast?_eq_some_iff.mp hc
    subst ht2
    rw [List.append_assoc] at h
    simp only [List.cons_append, List.nil_append] at h
    rw [noDoubleSlash_append_slashes] at h
    exact Bool.false_ne_true h
  · rw [if_neg hl]
    exact hl

theorem head?_dropTrailingSlash (l : List Char) (c : Char)
    (hh : l.head? = some c) (hne : l ≠ [c]) :
    (dropTrailingSlash l).head? = some c := by
  unfold dropTrailingSlash
  by_cases hl : l.getLast? = some '/'
  · rw [if_pos hl]
    cases l with
    | nil => simp at hh
    | cons a t =>
      simp only [List.head?_cons, Option.some.injEq] at hh
      subst hh
      cases t with
      | nil => simp at hne
      | cons b t2 => simp [List.dropLast_cons₂]
  · rw [if_neg hl]
    exact hh

theorem mem_dropTrailingSlash (l : List Char) (c : Char)
    (h : c ∈ dropTrailingSlash l) : c ∈ l := by
  unfold dropTrailingSlash at h
  by_cases hl : l.getLast? = some '/'
  · rw [if_pos hl] at h
    exact List.dropLast_subset l h
  · rw [if_neg hl] at h
    exact h

theorem noDoubleSlash_dropTrailingSlash (l : List Char) (h : noDoubleSlash l = true) :
    noDoubleSlash (dropTrailingSlash l) = true := by
  unfold dropTrailingSlash
  by_cases hl : l.getLast? = some '/'
  · rw [if_pos hl]; exact noDoubleSlash_dropLast l h
  · rw [if_neg hl]; exact h

theorem isNormalPath_formatPathChars (p : List Char) :
    isNormalPath (formatPathChars p) = true := by
  unfold formatPathChars
  have hq : (fun c => !isJsWhitespace c) '/' = true := by decide
  set fp := ('/' :: p).filter (fun c => !isJsWhitespace c) with hfp
  have hfp_cons : fp = '/' :: p.filter (fun c => !isJsWhitespace c) := by
    rw [hfp, List.filter_cons]
    simp only [hq, if_true]
  set s := collapseSlashes fp with hs
  have hmem : ∀ c ∈ s, isJsWhitespace c = false := by
    intro c hc
    have h1 := mem_collapseSlashes c fp (hs ▸ hc)
    rw [hfp] at h1
    have := (List.mem_filter.mp h1).2
    simpa using this
  have hnd : noDoubleSlash s = true := noDoubleSlash_collapseSlashes fp
  obtain ⟨t, hhead⟩ : ∃ t, s = '/' :: t := by
    rw [hs, hfp_cons]; exact collapseSlashes_cons '/' _
  by_cases h0 : s = []
  · rw [if_pos h0]; decide
  · rw [if_neg h0]
    by_cases h1 : s = ['/'] || s = ['/', '#', '/']
    · rw [if_pos h1]
      rcases Bool.or_eq_true _ _ |>.mp h1 with h2 | h2
      · rw [decide_eq_true_eq.mp h2]; decide
      · rw [decide_eq_true_eq.mp h2]; decide
    · rw [if_neg h1]
      simp only [Bool.or_eq_true, decide_eq_true_eq] at h1
      push_neg at h1
      have hslash : s ≠ ['/'] := h1.1
      simp only [isNormalPath, Bool.and_eq_true, Bool.or_eq_true, decide_eq_true_eq]
      refine ⟨⟨⟨?_, ?_⟩, ?_⟩, ?_⟩
      · exact head?_dropTrailingSlash s '/' (by rw [hhead]; rfl) hslash
      · exact noDoubleSlash_dropTrailingSlash s hnd
      · rw [List.all_eq_true]
        intro c hc
        have := hmem c (mem_dropTrailingSlash s c hc)
        simp [this]
      · exact Or.inr (getLast?_dropTrailingSlash s hnd hslash)

theorem formatPathChars_of_normal (l : List Char) (h : isNormalPath l = true) :
    formatPathChars l = l := by
  simp only [isNormalPath, Bool.and_eq_true, Bool.or_eq_true, decide_eq_true_eq] at h
  obtain ⟨⟨⟨hh, hnd⟩, hall⟩, hlast⟩ := h
  obtain ⟨t, rfl⟩ : ∃ t, l = '/' :: t := by
    cases l with
    | nil => simp at hh
    | cons a t =>
      simp only [List.head?_cons, Option.some.injEq] at hh
      exact ⟨t, by rw [hh]⟩
  unfold formatPathChars
  have hfilter : ('/' :: '/' :: t).filter (fun c => !isJsWhitespace c) = '/' :: '/' :: t := by
    rw [List.filter_eq_self]
    intro a ha
    rcases List.mem_cons.mp ha with h1 | h1
    · simp [h1]; decide
    · rw [List.all_eq_true] at hall
      exact hall a h1
  have hcollapse : collapseSlashes ('/' :: '/' :: t) = '/' :: t := by
    rw [collapseSlashes_cons_cons, if_pos ⟨rfl, rfl⟩]
    exact collapseSlashes_eq_self _ hnd
  have hstep : ('/' :: ('/' :: t)).filter (fun c => !isJsWhitespace c) = '/' :: '/' :: t := hfilter
  rw [hstep, hcollapse]
  rw [if_neg (by simp)]
  by_cases h2 : '/' :: t = ['/'] || '/' :: t = ['/', '#', '/']
  · rw [if_pos h2]
  · rw [if_neg h2]
    simp only [Bool.or_eq_true, decide_eq_true_eq] at h2
    push_neg at h2
    unfold dropTrailingSlash
    rcases hlast with (h3 | h3) | h3
    · exact absurd h3 h2.1
    · exact absurd h3 h2.2
    · rw [if_neg h3]

/-- C10: `formatPath` is idempotent, and every output begins with `/`,
contains no whitespace character and no `//` substring, and does not end with
`/` unless it is exactly the root `/` or the hash root `/#/`. -/
theorem C10_formatPath_idempotent_normal (s : String) :
    formatPath (formatPath s) = formatPath s ∧
    (formatPath s).data.head? = some '/' ∧
    (∀ c ∈ (formatPath s).data, isJsWhitespace c = false) ∧
    noDoubleSlash (formatPath s).data = true ∧
    ((formatPath s).data.getLast? = some '/' →
      formatPath s = "/" ∨ formatPath s = "/#/") := by
  have hA := isNormalPath_formatPathChars s.data
  have hdata : (formatPath s).data = formatPathChars s.data := rfl
  have hidem : formatPath (formatPath s) = formatPath s := by
    show String.mk (formatPathChars (formatPathChars s.data)) = String.mk (formatPathChars s.data)
    rw [formatPathChars_of_normal _ hA]
  have hA2 := hA
  simp only [isNormalPath, Bool.and_eq_true, Bool.or_eq_true, decide_eq_true_eq] at hA2
  obtain ⟨⟨⟨hh, hnd⟩, hall⟩, hlast⟩ := hA2
  refine ⟨hidem, ?_, ?_, ?_, ?_⟩
  · rw [hdata]; exact hh
  · intro c hc
    rw [hdata] at hc
    rw [List.all_eq_true] at hall
    have := hall c hc
    simpa using this
  · rw [hdata]; exact hnd
  · intro hsl
    rw [hdata] at hsl
    rcases hlast with (h3 | h3) | h3
    · left
      show String.mk (formatPathChars s.data) = "/"
      rw [h3]
    · right
      show String.mk (formatPathChars s.data) = "/#/"
      rw [h3]
    · exact absurd hsl h3

/-- Witness for C10 at concrete inputs: idempotence at `" a //b "` and the
trailing-slash exception discharged at `""` (whose output is the root). -/
theorem C10_formatPath_idempotent_normal_witness :
    formatPath (formatPath " a //b ") = formatPath " a //b " ∧
    (formatPath "" = "/" ∨ formatPath "" = "/#/") :=
  ⟨(C10_formatPath_idempotent_normal " a //b ").1,
   (C10_formatPath_idempotent_normal "").2.2.2.2 (by decide)⟩

/-- C3: with `/a/{b?}/{c?}` registered, the code bug — the generated regex
keeps the separator between the two optional groups mandatory, so `/a` does
not match even though the route is registered in the one-segment bucket;
`/a/x` and `/a/x/y` match with missing trailing parameters bound to
`undefined` (never the empty string). -/
theorem C3_optional_params_code_bug :
    matchRoute false regABC "/a" = none ∧
    (matchRoute false regABC "/a/x").map (fun m => (m.route.rid, m.params)) =
      some (6, some [("b", some "x"), ("c", none)]) ∧
    (matchRoute false regABC "/a/x/y").map (fun m => (m.route.rid, m.params)) =
      some (6, some [("b", some "x"), ("c", some "y")]) ∧
    (bucketFind? regABC.dynamicRoutes 1).map List.length = some 1 :=
  ⟨by decide, by decide, by decide, by decide⟩

/-- C4: the code bug — because the two replace passes of
`createDynamicPattern` process every optional variable before any mandatory
one, a path mixing the two kinds always throws, even when every mandatory
variable precedes every optional one (`/a/{b}/{c?}`); unmixed paths
compile. -/
theorem C4_optional_order_code_bug :
    (createDynamicPattern "/a/{b}/{c?}" []).isOk = false ∧
    (createDynamicPattern "/a/{b?}/{c}" []).isOk = false ∧
    (createDynamicPattern "/a/{b}/{c}" []).isOk = true ∧
    (createDynamicPattern "/a/{b?}/{c?}" []).isOk = true :=
  ⟨by decide, by decide, by decide, by decide⟩

/-- C8: the code bug — `currentIndex` looks the live location object up by
reference and that object sits at slot 0 forever, so after two successful
pushes the cursor still reads 0: the second push overwrites the first in the
history array, and `go(-1)` clamps to index 0 = current and returns without
navigating (state unchanged, no result). -/
theorem C8_memory_go_code_bug :
    (memPush sysAB (memInit sysAB) (mkTarget "/a") [envOk1] 5).2.map NavResult.status =
      some .success ∧
    (memPush sysAB memS1 (mkTarget "/b")
        [{ ret := .value .gVoid, taskAtResolve := 2 }] 5).2.map NavResult.status =
      some .success ∧
    memS2.live.path = "/b" ∧
    memS2.history.map (fun h => match h with | .live => none | .obj l => some l.path) =
      [none, some "/b"] ∧
    memGoBack.1 = memS2 ∧
    memGoBack.2 = none :=
  ⟨by decide, by decide, by decide, by decide, by decide, by decide⟩

/-- C1 counterexample: a task (id 1) whose before-guard resolves `false`
after a newer navigation (id 2) has started terminates with `aborted`, not
`cancelled` — the `result === false` check runs before the task-currency
check. -/
theorem C1_stale_abort_counterexample :
    navStatusOf (performNavigation sysAB 1 locBase locBase inA 5 [envStaleFalse] inA false) =
      some .aborted ∧
    envStaleFalse.taskAtResolve ≠ 1 ∧
    NavStatus.aborted ≠ NavStatus.cancelled :=
  ⟨by decide, by decide, by decide⟩

/-- C1 as amended: after a stale guard resolution the task performs no
history write, and its status is `cancelled` unless the guard returned
`false` (then `aborted`) or threw (then `exception`); a guard that resolves
with no value while its task is still current commits with one history
write. -/
theorem C1_stale_guard_fencing :
    (∀ (sys : Sys) (taskId : Nat) (fromLoc liveLoc : Loc) (origTarget : NavInput)
        (fuel : Nat) (env : NavEnv) (envrest : List NavEnv) (tgt : NavInput)
        (isRedirect : Bool) (toL : Loc),
      createRouteLocation sys tgt = .ok toL →
      (toL.matched.getLast?.bind (findRouteById sys.reg)).bind RouteN.redirect = none →
      toL ≠ liveLoc →
      env.taskAtResolve ≠ taskId →
      ∃ res tr,
        performNavigation sys taskId fromLoc liveLoc origTarget (fuel + 1)
            (env :: envrest) tgt isRedirect = .ok (res, tr) ∧
        tr.writes = [] ∧
        ((env.ret = .value .gFalse ∧ res.status = .aborted) ∨
         (∃ e, env.ret = .raise e ∧ res.status = .exception) ∨
         (env.ret ≠ .value .gFalse ∧ (∀ e, env.ret ≠ .raise e) ∧
          res.status = .cancelled))) ∧
    (∀ (sys : Sys) (taskId : Nat) (fromLoc liveLoc : Loc) (origTarget : NavInput)
        (fuel : Nat) (envrest : List NavEnv) (tgt : NavInput)
        (isRedirect : Bool) (toL : Loc),
      createRouteLocation sys tgt = .ok toL →
      (toL.matched.getLast?.bind (findRouteById sys.reg)).bind RouteN.redirect = none →
      toL ≠ liveLoc →
      toL.matched ≠ [] →
      performNavigation sys taskId fromLoc liveLoc origTarget (fuel + 1)
          ({ ret := .value .gVoid, taskAtResolve := taskId } :: envrest) tgt isRedirect =
        .ok ({ status := .success, fromLoc := fromLoc, toLoc := toL,
               redirectFrom := if isRedirect then some origTarget else none,
               error := none },
             { guardCalls := 1, writes := [(tgt.isReplace, toL)] })) := by
  constructor
  · intro sys taskId fromLoc liveLoc origTarget fuel env envrest tgt isRedirect toL
      hcreate hnored hne hstale
    unfold performNavigation
    rw [hcreate]
    simp only [hnored]
    rw [if_neg hne]
    obtain ⟨ret, tar⟩ := env
    simp only at hstale
    cases ret with
    | raise e =>
      refine ⟨_, _, rfl, rfl, Or.inr (Or.inl ⟨e, rfl, rfl⟩)⟩
    | value v =>
      cases v with
      | gFalse => exact ⟨_, _, rfl, rfl, Or.inl ⟨rfl, rfl⟩⟩
      | gTarget t2 =>
        refine ⟨{ status := .cancelled, fromLoc := fromLoc, toLoc := toL,
                  redirectFrom := if isRedirect then some origTarget else none,
                  error := none },
                { guardCalls := 1, writes := [] }, ?_, rfl,
                Or.inr (Or.inr ⟨by simp, fun e => by simp, rfl⟩)⟩
        dsimp only
        rw [if_pos hstale]
      | gVoid =>
        refine ⟨{ status := .cancelled, fromLoc := fromLoc, toLoc := toL,
                  redirectFrom := if isRedirect then some origTarget else none,
                  error := none },
                { guardCalls := 1, writes := [] }, ?_, rfl,
                Or.inr (Or.inr ⟨by simp, fun e => by simp, rfl⟩)⟩
        dsimp only
        rw [if_pos hstale]
  · intro sys taskId fromLoc liveLoc origTarget fuel envrest tgt isRedirect toL
      hcreate hnored hne hmatched
    unfold performNavigation
    rw [hcreate]
    simp only [hnored]
    rw [if_neg hne]
    rw [if_neg (fun h => h rfl)]
    simp only [commitStep, if_neg hmatched]

/-- Witness for C1: the stale-guard clause at task 1 superseded by task 2
(status `cancelled`), and the current-task clause committing `/a`. -/
theorem C1_stale_guard_fencing_witness :
    (∃ res tr,
      performNavigation sysAB 1 locBase locBase inA 5 [envStaleVoid] inA false =
        .ok (res, tr) ∧
      tr.writes = [] ∧
      ((envStaleVoid.ret = .value .gFalse ∧ res.status = .aborted) ∨
       (∃ e, envStaleVoid.ret = .raise e ∧ res.status = .exception) ∨
       (envStaleVoid.ret ≠ .value .gFalse ∧ (∀ e, envStaleVoid.ret ≠ .raise e) ∧
        res.status = .cancelled))) ∧
    performNavigation sysAB 1 locBase locBase inA 5 [envOk1] inA false =
      .ok ({ status := .success, fromLoc := locBase, toLoc := locA,
             redirectFrom := none, error := none },
           { guardCalls := 1, writes := [(false, locA)] }) :=
  ⟨C1_stale_guard_fencing.1 sysAB 1 locBase locBase inA 4 envStaleVoid [] inA false locA
      (by decide) (by decide) (by decide) (by decide),
   C1_stale_guard_fencing.2 sysAB 1 locBase locBase inA 4 [] inA false locA
      (by decide) (by decide) (by decide) (by decide)⟩

/-- C2 counterexample: `push('user')` with the required `id` parameter
missing makes `createRouteLocation` throw outside the `try` block, so the
promise returned by `navigate` rejects instead of resolving with a typed
result. -/
theorem C2_reject_counterexample :
    (navigateM sysUser locBase { taskCounter := 0, currentTaskId := 0 }
        (.target (mkTarget "user")) [envOk1] 5).1 =
      .error (.rejected (missingParamMsg "/u/{id}" "id")) ∧
    mergePathParams "/u/{id}" [] = .error (missingParamMsg "/u/{id}" "id") :=
  ⟨by decide, by decide⟩

/-- C2 as amended: an exception thrown while building the candidate location
(steps 1-4, e.g. a missing mandatory path parameter) escapes as a rejected
promise; an exception thrown by the awaited before-guard (steps 5-8) is
caught and surfaces as a result with status `exception` carrying the error,
with no history write. -/
theorem C2_exception_result :
    (∀ (sys : Sys) (taskId : Nat) (fromLoc liveLoc : Loc) (origTarget : NavInput)
        (fuel : Nat) (envs : List NavEnv) (tgt : NavInput) (isRedirect : Bool)
        (e : String),
      createRouteLocation sys tgt = .error e →
      performNavigation sys taskId fromLoc liveLoc origTarget (fuel + 1) envs tgt isRedirect =
        .error (.rejected e)) ∧
    (∀ (sys : Sys) (taskId : Nat) (fromLoc liveLoc : Loc) (origTarget : NavInput)
        (fuel : Nat) (envrest : List NavEnv) (tgt : NavInput) (isRedirect : Bool)
        (toL : Loc) (e : String) (tar : Nat),
      createRouteLocation sys tgt = .ok toL →
      (toL.matched.getLast?.bind (findRouteById sys.reg)).bind RouteN.redirect = none →
      toL ≠ liveLoc →
      performNavigation sys taskId fromLoc liveLoc origTarget (fuel + 1)
          ({ ret := .raise e, taskAtResolve := tar } :: envrest) tgt isRedirect =
        .ok ({ status := .exception, fromLoc := fromLoc, toLoc := toL,
               redirectFrom := if isRedirect then some origTarget else none,
               error := some e },
             { guardCalls := 1, writes := [] })) := by
  constructor
  · intro sys taskId fromLoc liveLoc origTarget fuel envs tgt isRedirect e hcreate
    unfold performNavigation
    rw [hcreate]
  · intro sys taskId fromLoc liveLoc origTarget fuel envrest tgt isRedirect toL e tar
      hcreate hnored hne
    unfold performNavigation
    rw [hcreate]
    simp only [hnored]
    rw [if_neg hne]

/-- Witness for C2: the rejection at the `user` route without `id`, and a
guard throw surfacing as an `exception` result. -/
theorem C2_exception_result_witness :
    performNavigation sysUser 1 locBase locBase (.target (mkTarget "user")) 5 []
        (.target (mkTarget "user")) false =
      .error (.rejected (missingParamMsg "/u/{id}" "id")) ∧
    performNavigation sysAB 1 locBase locBase inA 5
        [{ ret := .raise "guard boom", taskAtResolve := 9 }] inA false =
      .ok ({ status := .exception, fromLoc := locBase, toLoc := locA,
             redirectFrom := none, error := some "guard boom" },
           { guardCalls := 1, writes := [] }) :=
  ⟨C2_exception_result.1 sysUser 1 locBase locBase (.target (mkTarget "user")) 4 []
      (.target (mkTarget "user")) false (missingParamMsg "/u/{id}" "id") (by decide),
   C2_exception_result.2 sysAB 1 locBase locBase inA 4 [] inA false locA "guard boom" 9
      (by decide) (by decide) (by decide)⟩

/-- Helper: the first entry of a list on which `f` fires determines
`findSome?`, whatever comes after it. -/
theorem findSome?_append_first {α β : Type} (f : α → Option β) (pre : List α)
    (e : α) (post : List α) (b : β) (hpre : ∀ x ∈ pre, f x = none)
    (he : f e = some b) : (pre ++ e :: post).findSome? f = some b := by
  induction pre with
  | nil => simp [List.findSome?_cons, he]
  | cons a rest ih =>
    have ha : f a = none := hpre a (List.mem_cons_self a rest)
    simp only [List.cons_append, List.findSome?_cons, ha]
    exact ih (fun x hx => hpre x (List.mem_cons_of_mem a hx))

/-- C5: a static hit (with a valid suffix) answers `matchRoute` regardless of
the dynamic map; on a static miss the dynamic bucket is scanned in
registration order and the first accepting entry wins, whatever is
registered after it; and when the path carries a suffix or already ends in
`/index`, the implicit `<path>/index` retry is never consulted (only the
`/index` → `/` branch can still answer). -/
theorem C5_match_precedence :
    (∀ (strict : Bool) (reg : Registry) (path : String) (res : MatchResult)
        (dyn2 : List (Int × List DynEntry)),
      tryStaticKey reg (String.mk (matchShortChars strict path)) (matchSuffix strict path)
          (matchFormatted strict path) = some res →
      matchRoute strict { reg with dynamicRoutes := dyn2 } path = some res) ∧
    (∀ (strict : Bool) (reg : Registry) (path : String) (res : MatchResult)
        (pre : List DynEntry) (e : DynEntry) (post : List DynEntry),
      tryStaticKey reg (String.mk (matchShortChars strict path)) (matchSuffix strict path)
          (matchFormatted strict path) = none →
      bucketFind? reg.dynamicRoutes
          (Int.ofNat (nonEmptySegCount (matchShortChars strict path))) =
        some (pre ++ e :: post) →
      (∀ x ∈ pre, tryDynEntry (matchShortChars strict path) (matchSuffix strict path)
          (matchFormatted strict path) x = none) →
      tryDynEntry (matchShortChars strict path) (matchSuffix strict path)
          (matchFormatted strict path) e = some res →
      matchRoute strict reg path = some res) ∧
    (∀ (strict : Bool) (reg : Registry) (path : String),
      tryStaticKey reg (String.mk (matchShortChars strict path)) (matchSuffix strict path)
          (matchFormatted strict path) = none →
      ((bucketFind? reg.dynamicRoutes
          (Int.ofNat (nonEmptySegCount (matchShortChars strict path)))).getD []).findSome?
          (tryDynEntry (matchShortChars strict path) (matchSuffix strict path)
            (matchFormatted strict path)) = none →
      (matchSuffix strict path = "" &&
        !(List.isSuffixOf "/index".data (matchShortChars strict path))) = false →
      matchRoute strict reg path =
        (if String.mk (matchShortChars strict path) = "/index" then
          tryStaticKey reg "/" (matchSuffix strict path) (matchFormatted strict path)
        else none)) := by
  refine ⟨?_, ?_, ?_⟩
  · intro strict reg path res dyn2 hstatic
    have hstatic2 : tryStaticKey { reg with dynamicRoutes := dyn2 }
        (String.mk (matchShortChars strict path)) (matchSuffix strict path)
        (matchFormatted strict path) = some res := hstatic
    unfold matchRoute
    dsimp only
    rw [hstatic2]
  · intro strict reg path res pre e post hstatic hbucket hpre he
    unfold matchRoute
    dsimp only
    rw [hstatic, hbucket]
    simp only [Option.getD_some]
    rw [findSome?_append_first _ pre e post res hpre he]
  · intro strict reg path hstatic hdyn hcond
    unfold matchRoute
    dsimp only
    rw [hstatic, hdyn]
    unfold tryIndexFallback
    dsimp only
    rw [hcond]
    simp

/-- Witness for C5: over `regPXY`, the static `/p` wins even with the
dynamic map emptied; `/q` picks the earlier-registered `/{x}` entry ahead of
`/{y}`; and `/q/w.txt` (suffixed, no static, no dynamic match) yields no
match without consulting an implicit index route. -/
theorem C5_match_precedence_witness :
    matchRoute false { regPXY with dynamicRoutes := [] } "/p" =
      some { route := routeP, params := none } ∧
    matchRoute false regPXY "/q" = some resQX ∧
    matchRoute false regPXY "/q/w.txt" = none :=
  ⟨C5_match_precedence.1 false regPXY "/p" { route := routeP, params := none } []
      (by decide),
   C5_match_precedence.2.1 false regPXY "/q" resQX [] entryX [entryY]
      (by decide) (by decide) (by simp) (by decide),
   C5_match_precedence.2.2 false regPXY "/q/w.txt"
      (by decide) (by decide) (by decide)⟩

/-- C6 counterexample: registering a route with a fresh name but a duplicate
path throws, yet leaves the fresh name behind in the name map — the three
indices are not all as they were. -/
theorem C6_partial_insert_counterexample :
    (recordRoute false regHome routeDupPath).2.isSome = true ∧
    (recordRoute false regHome routeDupPath).1 ≠ regHome ∧
    alistFind? (recordRoute false regHome routeDupPath).1.namedRoutes "other" =
      some routeDupPath ∧
    alistFind? regHome.namedRoutes "other" = none :=
  ⟨by decide, by decide, by decide, by decide⟩

/-- C6 as amended: a duplicate-name collision throws with every index
untouched; a duplicate-path collision throws with the path map and the
dynamic buckets untouched, but a fresh name of the failing route has already
been inserted into the name map and is not rolled back. -/
theorem C6_collision_rollback :
    (∀ (strict : Bool) (reg : Registry) (route : RouteN) (n : String),
      route.name = some n →
      (alistFind? reg.namedRoutes
        (if n.data.head? = some '/' then stripLeadingSlashName n else n)).isSome = true →
      recordRoute strict reg route = (reg, some "duplicate route name")) ∧
    (∀ (strict : Bool) (reg : Registry) (route : RouteN),
      route.name = none →
      (alistFind? reg.pathRoutes (strictPath strict route.path)).isSome = true →
      recordRoute strict reg route = (reg, some "duplicate route path")) ∧
    (∀ (strict : Bool) (reg : Registry) (route : RouteN) (n : String),
      route.name = some n →
      n.data.head? ≠ some '/' →
      alistFind? reg.namedRoutes n = none →
      (alistFind? reg.pathRoutes (strictPath strict route.path)).isSome = true →
      (recordRoute strict reg route).2 = some "duplicate route path" ∧
      (recordRoute strict reg route).1.pathRoutes = reg.pathRoutes ∧
      (recordRoute strict reg route).1.dynamicRoutes = reg.dynamicRoutes ∧
      (recordRoute strict reg route).1.namedRoutes = alistSet reg.namedRoutes n route) := by
  refine ⟨?_, ?_, ?_⟩
  · intro strict reg route n hname hdup
    unfold recordRoute
    rw [hname]
    by_cases hsl : n.data.head? = some '/'
    · rw [if_pos hsl] at hdup
      simp only [if_pos hsl]
      rw [if_pos hdup]
    · rw [if_neg hsl] at hdup
      simp only [if_neg hsl]
      rw [if_pos hdup]
  · intro strict reg route hname hdup
    unfold recordRoute
    rw [hname]
    unfold recordRoutePath
    rw [if_pos hdup]
  · intro strict reg route n hname hsl hfresh hdup
    have hroute : { route with name := some n } = route := by
      cases route
      simp only at hname
      simp [hname]
    have hnofind : ¬((alistFind? reg.namedRoutes n).isSome = true) := by
      rw [hfresh]
      simp
    have hEq : recordRoute strict reg route =
        ({ reg with namedRoutes := alistSet reg.namedRoutes n route },
         some "duplicate route path") := by
      unfold recordRoute
      rw [hname]
      dsimp only
      rw [if_neg hsl, hroute]
      rw [if_neg hnofind]
      unfold recordRoutePath
      dsimp only
      rw [if_pos hdup]
    rw [hEq]
    exact ⟨rfl, rfl, rfl, rfl⟩

/-- Witness for C6: the name collision on `home` leaves `regHome` untouched;
the path collision on `/home` keeps path and dynamic maps but retains the
fresh name `other`. -/
theorem C6_collision_rollback_witness :
    recordRoute false regHome routeDupName = (regHome, some "duplicate route name") ∧
    ((recordRoute false regHome routeDupPath).2 = some "duplicate route path" ∧
     (recordRoute false regHome routeDupPath).1.pathRoutes = regHome.pathRoutes ∧
     (recordRoute false regHome routeDupPath).1.dynamicRoutes = regHome.dynamicRoutes ∧
     (recordRoute false regHome routeDupPath).1.namedRoutes =
       alistSet regHome.namedRoutes "other" routeDupPath) :=
  ⟨C6_collision_rollback.1 false regHome routeDupName "home" rfl (by decide),
   C6_collision_rollback.2.2 false regHome routeDupPath "other" rfl (by decide)
      (by decide) (by decide)⟩

/-- C7: a candidate location structurally identical to the live one makes
`navigate` terminate with `duplicated` before the guard runs: zero guard
invocations and no history write, for every guard environment. -/
theorem C7_duplicated_short_circuit (sys : Sys) (taskId : Nat)
    (fromLoc liveLoc : Loc) (origTarget : NavInput) (fuel : Nat)
    (envs : List NavEnv) (tgt : NavInput) (isRedirect : Bool) (toL : Loc)
    (hcreate : createRouteLocation sys tgt = .ok toL)
    (hnored : (toL.matched.getLast?.bind (findRouteById sys.reg)).bind RouteN.redirect = none)
    (hdup : toL = liveLoc) :
    performNavigation sys taskId fromLoc liveLoc origTarget (fuel + 1) envs tgt isRedirect =
      .ok ({ status := .duplicated, fromLoc := fromLoc, toLoc := toL,
             redirectFrom := if isRedirect then some origTarget else none,
             error := none },
           { guardCalls := 0, writes := [] }) := by
  subst hdup
  unfold performNavigation
  rw [hcreate]
  simp only [hnored]
  simp

/-- Witness for C7: pushing `/a` while the live location already is `/a`
resolves `duplicated` with an untouched trace. -/
theorem C7_duplicated_short_circuit_witness :
    performNavigation sysAB 1 locA locA inA 5 [envOk1] inA false =
      .ok ({ status := .duplicated, fromLoc := locA, toLoc := locA,
             redirectFrom := none, error := none },
           { guardCalls := 0, writes := [] }) :=
  C7_duplicated_short_circuit sysAB 1 locA locA inA 4 [envOk1] inA false locA
    (by decide) (by decide) rfl

/-- C9 counterexample: navigating to `/r`, whose route declares a redirect to
`/s`, with a guard that never changes the target (it resolves with no value)
still sets `redirectFrom` to the original target — contradicting the claim
that `redirectFrom` is set only when a before-guard changed the target. -/
theorem C9_route_redirect_counterexample :
    (performNavigation sysRS 1 locBase locBase (.target (mkTarget "/r")) 5 [envOk1]
        (.target (mkTarget "/r")) false).map
      (fun p => (p.1.status, p.1.redirectFrom, p.1.toLoc.path)) =
      .ok (.success, some (.target (mkTarget "/r")), "/s") ∧
    envOk1.ret = .value .gVoid :=
  ⟨by decide, by decide⟩

/-- C9 as amended: `redirectFrom` is set exactly when the target was changed
by a redirect of either kind.  A navigation with no route redirect and a
guard returning no new target commits with `redirectFrom` absent; both a
route-declared redirect and a guard-returned redirect commit the final
location with `redirectFrom` equal to the original navigation target. -/
theorem C9_redirectFrom_semantics :
    (∀ (sys : Sys) (taskId : Nat) (fromLoc liveLoc : Loc) (origTarget : NavInput)
        (fuel : Nat) (envrest : List NavEnv) (tgt : NavInput) (toL : Loc),
      createRouteLocation sys tgt = .ok toL →
      (toL.matched.getLast?.bind (findRouteById sys.reg)).bind RouteN.redirect = none →
      toL ≠ liveLoc →
      toL.matched ≠ [] →
      performNavigation sys taskId fromLoc liveLoc origTarget (fuel + 1)
          ({ ret := .value .gVoid, taskAtResolve := taskId } :: envrest) tgt false =
        .ok ({ status := .success, fromLoc := fromLoc, toLoc := toL,
               redirectFrom := none, error := none },
             { guardCalls := 1, writes := [(tgt.isReplace, toL)] })) ∧
    (∀ (sys : Sys) (taskId : Nat) (fromLoc liveLoc : Loc) (origTarget : NavInput)
        (fuel : Nat) (envrest : List NavEnv) (tgt : NavInput) (to1 to2 : Loc) (rd : String),
      createRouteLocation sys tgt = .ok to1 →
      (to1.matched.getLast?.bind (findRouteById sys.reg)).bind RouteN.redirect = some rd →
      createRouteLocation sys (.target (mkTarget rd)) = .ok to2 →
      (to2.matched.getLast?.bind (findRouteById sys.reg)).bind RouteN.redirect = none →
      to2 ≠ liveLoc →
      to2.matched ≠ [] →
      performNavigation sys taskId fromLoc liveLoc origTarget (fuel + 2)
          ({ ret := .value .gVoid, taskAtResolve := taskId } :: envrest) tgt false =
        .ok ({ status := .success, fromLoc := fromLoc, toLoc := to2,
               redirectFrom := some origTarget, error := none },
             { guardCalls := 1, writes := [(false, to2)] })) ∧
    (∀ (sys : Sys) (taskId : Nat) (fromLoc liveLoc : Loc) (origTarget : NavInput)
        (fuel : Nat) (envrest : List NavEnv) (tgt : NavInput) (to1 to2 : Loc)
        (t2 : TargetSpec),
      createRouteLocation sys tgt = .ok to1 →
      (to1.matched.getLast?.bind (findRouteById sys.reg)).bind RouteN.redirect = none →
      to1 ≠ liveLoc →
      t2.index ≠ tgt.index →
      createRouteLocation sys
          (.target { t2 with isReplace := some (t2.isReplace.getD false) }) = .ok to2 →
      (to2.matched.getLast?.bind (findRouteById sys.reg)).bind RouteN.redirect = none →
      to2 ≠ liveLoc →
      to2.matched ≠ [] →
      performNavigation sys taskId fromLoc liveLoc origTarget (fuel + 2)
          ({ ret := .value (.gTarget t2), taskAtResolve := taskId }
            :: { ret := .value .gVoid, taskAtResolve := taskId } :: envrest) tgt false =
        .ok ({ status := .success, fromLoc := fromLoc, toLoc := to2,
               redirectFrom := some origTarget, error := none },
             { guardCalls := 2, writes := [(t2.isReplace.getD false, to2)] })) := by
  refine ⟨?_, ?_, ?_⟩
  · intro sys taskId fromLoc liveLoc origTarget fuel envrest tgt toL
      hcreate hnored hne hmatched
    unfold performNavigation
    rw [hcreate]
    simp only [hnored]
    rw [if_neg hne]
    rw [if_neg (fun h => h rfl)]
    simp only [commitStep, if_neg hmatched]
    simp
  · intro sys taskId fromLoc liveLoc origTarget fuel envrest tgt to1 to2 rd
      hc1 hred hc2 hnored2 hne2 hm2
    unfold performNavigation
    rw [hc1]
    simp only [hred]
    unfold performNavigation
    rw [hc2]
    simp only [hnored2]
    rw [if_neg hne2]
    rw [if_neg (fun h => h rfl)]
    simp only [commitStep, if_neg hm2]
    simp [NavInput.isReplace, mkTarget]
  · intro sys taskId fromLoc liveLoc origTarget fuel envrest tgt to1 to2 t2
      hc1 hnored1 hne1 hidx hc2 hnored2 hne2 hm2
    unfold performNavigation
    rw [hc1]
    simp only [hnored1]
    rw [if_neg hne1]
    rw [if_neg (fun h => h rfl)]
    rw [if_pos hidx]
    unfold performNavigation
    rw [hc2]
    simp only [hnored2]
    rw [if_neg hne2]
    rw [if_neg (fun h => h rfl)]
    simp only [commitStep, if_neg hm2]
    simp [NavInput.isReplace]

/-- Witness for C9: the plain commit of `/a` with `redirectFrom` absent, and
the `/r` → `/s` route redirect carrying the original target. -/
theorem C9_redirectFrom_semantics_witness :
    performNavigation sysAB 1 locBase locBase inA 5 [envOk1] inA false =
      .ok ({ status := .success, fromLoc := locBase, toLoc := locA,
             redirectFrom := none, error := none },
           { guardCalls := 1, writes := [(false, locA)] }) ∧
    performNavigation sysRS 1 locBase locBase (.target (mkTarget "/r")) 5 [envOk1]
        (.target (mkTarget "/r")) false =
      .ok ({ status := .success, fromLoc := locBase,
             toLoc := (createRouteLocation sysRS (.target (mkTarget "/s"))).toOption.getD locBase,
             redirectFrom := some (.target (mkTarget "/r")), error := none },
           { guardCalls := 1,
             writes := [(false, (createRouteLocation sysRS (.target (mkTarget "/s"))).toOption.getD locBase)] }) :=
  ⟨C9_redirectFrom_semantics.1 sysAB 1 locBase locBase inA 4 [] inA locA
      (by decide) (by decide) (by decide) (by decide),
   C9_redirectFrom_semantics.2.1 sysRS 1 locBase locBase (.target (mkTarget "/r")) 3 []
      (.target (mkTarget "/r"))
      ((createRouteLocation sysRS (.target (mkTarget "/r"))).toOption.getD locBase)
      ((createRouteLocation sysRS (.target (mkTarget "/s"))).toOption.getD locBase) "/s"
      (by decide) (by decide) (by decide) (by decide) (by decide) (by decide)⟩

end VitarxRouter
